import Mathlib

/-!
Verification of the hierarchical document assembly engine in `generate.py`
(repository `stack-stats-questions`).

The Python source is shallowly embedded below:

* `pjoin` models `os.path.join` (two-argument, POSIX form);
* `relpath` models `os.path.relpath` for the `..`-free relative paths the
  program manipulates;
* `XmlTree` models the parsed form of an XML file, with `xpathDoc` modelling
  the two fixed absolute XPath queries of the source and `serializeXml`
  modelling `lxml.etree.tostring`; a file on disk is a `FileData`, which is
  either `unparseable` (the black-box parser rejects it) or a parsed tree;
* `PTXStackQuestion` / `PTXElem` embed the classes `PTXStackQuestion` and
  `PTXStructuralElement` (with its subclasses `PTXMain`, `PTXChapter`,
  `PTXSection`, `PTXSubsection`, collapsed into a `Role` tag);
* `renderElem` embeds the `render` methods, `make_files` embeds the file
  writing traversal as a trace of filesystem operations (`FsOp`), and
  `compile_structural_element` embeds the builder of the same name;
* the slug normalizer `slugify` is an external collaborator and is threaded
  through every constructor as an explicit function argument;
* fatal Python exceptions (lxml parse failures, `IndexError` on an empty
  XPath result, `AttributeError` on a missing text, `KeyError` on the level
  map, `IsADirectoryError` on `open`) are embedded as `Except` errors,
  grouped by the taxonomy of the specification (`resourceParse`, `fsError`,
  `keyError`).
-/

/-- Error taxonomy: `resourceParse` models the fatal parse failures
(`ResourceParseError` in the specification), `fsError` the fatal filesystem
failures, `keyError` the `KeyError` raised by `level_map[level]` for a level
outside 0..3. -/
inductive BuildError where
  | resourceParse
  | fsError
  | keyError
deriving DecidableEq, Repr

/-- Model of `os.path.join a b` (POSIX, two arguments): if `b` starts with
the separator the result is `b`; if `a` is empty or ends with the separator
the result is `a ++ b`; otherwise the separator is inserted.  The
`startswith`/`endswith` tests on the one-character separator are expressed
on the character list of the string. -/
def pjoin (a b : String) : String :=
  if b.data.head? = some '/' then b
  else if a.data = [] ∨ a.data.getLast? = some '/' then a ++ b
  else a ++ "/" ++ b

/-- Model of Python `s.endswith(suf)`. -/
def strEndsWith (s suf : String) : Bool :=
  suf.data.isSuffixOf s.data

/-- Model of Python `s.split(c)` for a one-character separator: splits the
character list at every occurrence of `c`; the result is always a nonempty
list of (possibly empty) groups. -/
def splitOnChar (c : Char) : List Char → List (List Char)
  | [] => [[]]
  | x :: xs =>
    let r := splitOnChar c xs
    if x = c then [] :: r
    else
      match r with
      | [] => [[x]]
      | g :: gs => (x :: g) :: gs

/-- Model of `s.split('/')[-1]`: the last slash-separated segment of `s`
(Python's `split` never returns an empty list, so the `[-1]` index is safe;
the default of `getLastD` is unreachable). -/
def lastSeg (s : String) : String :=
  ⟨(splitOnChar '/' s.data).getLastD []⟩

/-- Path components of `s` after the normalization done by
`posixpath.relpath` via `abspath`: empty and `.` components disappear.  The
program only ever passes `..`-free relative paths, which this models. -/
def pathParts (s : String) : List String :=
  ((splitOnChar '/' s.data).map (fun l => (⟨l⟩ : String))).filter
    (fun p => p ≠ "" ∧ p ≠ ".")

/-- Length of the common prefix of two component lists. -/
def commonPrefixLen : List String → List String → Nat
  | a :: as, b :: bs => if a = b then 1 + commonPrefixLen as bs else 0
  | _, _ => 0

/-- Model of `os.path.relpath path start` on `..`-free relative paths: drop
the common leading components, go up with `..` for what remains of `start`,
then down into what remains of `path`; an empty result is the current
directory. -/
def relpath (path start : String) : String :=
  let p := pathParts path
  let s := pathParts start
  let i := commonPrefixLen s p
  let parts := List.replicate (s.length - i) ".." ++ p.drop i
  if parts = [] then "." else String.intercalate "/" parts

/-- Model of a parsed XML element: a tag, optional text, child elements.
This stands for the trees produced by the black-box `lxml` parser. -/
inductive XmlTree where
  | node (tag : String) (text : Option String) (kids : List XmlTree)

/-- Tag of an element. -/
def XmlTree.tag : XmlTree → String
  | .node t _ _ => t

/-- Text of an element (`None` in lxml becomes `none`). -/
def XmlTree.text : XmlTree → Option String
  | .node _ tx _ => tx

/-- Child elements of an element. -/
def XmlTree.kids : XmlTree → List XmlTree
  | .node _ _ k => k

/-- Relabelling an element, modelling the assignment `tag[0].tag = "title"`. -/
def XmlTree.withTag (n : XmlTree) (t : String) : XmlTree :=
  match n with
  | .node _ tx ks => .node t tx ks

/-- Children of `n` whose tag is `t` (one XPath child step). -/
def xmlKidsNamed (t : String) (n : XmlTree) : List XmlTree :=
  n.kids.filter (fun k => k.tag = t)

/-- Remaining XPath child steps applied to a node list, in document order. -/
def xpathRel (steps : List String) (ns : List XmlTree) : List XmlTree :=
  match steps with
  | [] => ns
  | s :: rest => xpathRel rest (ns.flatMap (xmlKidsNamed s))

/-- Model of `doc.xpath("/s1/s2/...")`: the first step matches the document
root element itself, later steps descend to children. -/
def xpathDoc (doc : XmlTree) (steps : List String) : List XmlTree :=
  match steps with
  | [] => [doc]
  | s :: rest => xpathRel rest (if doc.tag = s then [doc] else [])

mutual
/-- Model of `lxml.etree.tostring` on an element (tag, text, serialized
children, closing tag; tail text of the element itself is not produced). -/
def serializeXml : XmlTree → String
  | .node t tx kids => "<" ++ t ++ ">" ++ tx.getD "" ++ serializeXmlKids kids ++ "</" ++ t ++ ">"

/-- Serialization of a child list, in order. -/
def serializeXmlKids : List XmlTree → String
  | [] => ""
  | k :: ks => serializeXml k ++ serializeXmlKids ks
end

/-- Content of a source file as seen through the black-box XML parser:
either the parser rejects it, or it yields a parsed tree. -/
inductive FileData where
  | unparseable
  | xml (doc : XmlTree)

/-- Embedding of the class `PTXStackQuestion`: the fields stored by
`__init__` (`filepath`, `xmlid = slugify(filepath)`, `title_tag`). -/
structure PTXStackQuestion where
  filepath : String
  xmlid : String
  title_tag : String
deriving DecidableEq

/-- Embedding of `PTXStackQuestion.__init__`: the file is opened and parsed
(`FileData.unparseable` models a parse failure), the query
`/quiz/question/name/text` is run, `tag[0]` fails on an empty result
(`IndexError`, a `resourceParse` failure in the specification's taxonomy),
otherwise the element is relabelled `title` and serialized. -/
def PTXStackQuestion.init (slugify : String → String) (filepath : String)
    (data : FileData) : Except BuildError PTXStackQuestion :=
  match data with
  | .unparseable => .error .resourceParse
  | .xml doc =>
    match (xpathDoc doc ["quiz", "question", "name", "text"]).head? with
    | none => .error .resourceParse
    | some nd =>
      .ok { filepath := filepath, xmlid := slugify filepath
            title_tag := serializeXml (nd.withTag "title") }

/-- Embedding of `PTXStackQuestion.render(relative_to)`. -/
def PTXStackQuestion.render (q : PTXStackQuestion) (relative_to : String) : String :=
  let rel_path := relpath q.filepath relative_to
  "\n            <exercise>\n                " ++ q.title_tag ++
  "\n\n                <!--<introduction>\n                    <p></p>\n                </introduction>-->\n\n                <!-- A @label is required, becomes a filename in output -->\n                <stack label=\"" ++
  q.xmlid ++
  "\" xmlns:xi=\"http://www.w3.org/2001/XInclude\">\n                    <xi:include href=\"" ++
  rel_path ++
  "\" />\n                </stack>\n            </exercise>\n            "

/-- Role of a structural element, collapsing the class hierarchy
`PTXMain` / `PTXChapter` / `PTXSection` / `PTXSubsection` into a tag. -/
inductive Role where
  | main
  | chapter
  | sect
  | subsect
deriving DecidableEq, Repr

/-- Embedding of `PTXStructuralElement` objects: the fields set by
`__init__` in the base class and adjusted by the subclasses
(`role`, `title`, `title_slug`, `introduction`, `questions`, `children`,
`foldername`, `filename`, `xml_id`).  `PTXMain` defines no `xml_id` and its
renderer embeds `title_slug` instead; the `xml_id` field of a `main`
element is set to that same bare slug. -/
inductive PTXElem where
  | mk (role : Role) (title : String) (title_slug : String)
       (introduction : String) (questions : List PTXStackQuestion)
       (children : List PTXElem) (foldername : String) (filename : String)
       (xml_id : String)

/-- Role field. -/
def PTXElem.role : PTXElem → Role
  | .mk r _ _ _ _ _ _ _ _ => r

/-- Title field. -/
def PTXElem.title : PTXElem → String
  | .mk _ t _ _ _ _ _ _ _ => t

/-- Slug of the title, `slugify(title)` at construction. -/
def PTXElem.title_slug : PTXElem → String
  | .mk _ _ s _ _ _ _ _ _ => s

/-- Introduction field. -/
def PTXElem.introduction : PTXElem → String
  | .mk _ _ _ i _ _ _ _ _ => i

/-- Questions attached to the element, in insertion order. -/
def PTXElem.questions : PTXElem → List PTXStackQuestion
  | .mk _ _ _ _ q _ _ _ _ => q

/-- Child elements, in insertion order. -/
def PTXElem.children : PTXElem → List PTXElem
  | .mk _ _ _ _ _ c _ _ _ => c

/-- Folder name of the element (`title_slug`, or `"."` for the root). -/
def PTXElem.foldername : PTXElem → String
  | .mk _ _ _ _ _ _ f _ _ => f

/-- File name of the element (`title_slug ++ ".ptx"`, or `"main.ptx"`). -/
def PTXElem.filename : PTXElem → String
  | .mk _ _ _ _ _ _ _ f _ => f

/-- Identifier embedded in the serialized form. -/
def PTXElem.xml_id : PTXElem → String
  | .mk _ _ _ _ _ _ _ _ x => x

/-- Embedding of `PTXMain.__init__`: base fields, then `foldername = "."`
and `filename = "main.ptx"`. -/
def mkPTXMain (slugify : String → String) (title introduction : String)
    (questions : List PTXStackQuestion) (children : List PTXElem) : PTXElem :=
  let ts := slugify title
  .mk .main title ts introduction questions children "." "main.ptx" ts

/-- Embedding of `PTXChapter.__init__`: base fields and `xml_id = "ch-" ++ slug`. -/
def mkPTXChapter (slugify : String → String) (title introduction : String)
    (questions : List PTXStackQuestion) (children : List PTXElem) : PTXElem :=
  let ts := slugify title
  .mk .chapter title ts introduction questions children ts (ts ++ ".ptx") ("ch-" ++ ts)

/-- Embedding of `PTXSection.__init__`: base fields and `xml_id = "sec-" ++ slug`. -/
def mkPTXSection (slugify : String → String) (title introduction : String)
    (questions : List PTXStackQuestion) (children : List PTXElem) : PTXElem :=
  let ts := slugify title
  .mk .sect title ts introduction questions children ts (ts ++ ".ptx") ("sec-" ++ ts)

/-- Embedding of `PTXSubsection.__init__`: base fields and
`xml_id = "subsec-" ++ slug` (the unused `parent_section_slug` parameter is
dropped). -/
def mkPTXSubsection (slugify : String → String) (title introduction : String)
    (questions : List PTXStackQuestion) (children : List PTXElem) : PTXElem :=
  let ts := slugify title
  .mk .subsect title ts introduction questions children ts (ts ++ ".ptx") ("subsec-" ++ ts)

/-- Dispatch on the role, modelling `elem_type(title, "")` after the
`level_map` lookup. -/
def mkElemOfRole (slugify : String → String) (role : Role)
    (title introduction : String) (questions : List PTXStackQuestion)
    (children : List PTXElem) : PTXElem :=
  match role with
  | .main => mkPTXMain slugify title introduction questions children
  | .chapter => mkPTXChapter slugify title introduction questions children
  | .sect => mkPTXSection slugify title introduction questions children
  | .subsect => mkPTXSubsection slugify title introduction questions children

/-- Class attribute `element_name` of the three concrete subclasses; the
root class `PTXMain` has none (its renderer never reads it), embedded as
the empty string. -/
def element_name : Role → String
  | .main => ""
  | .chapter => "chapter"
  | .sect => "section"
  | .subsect => "subsection"

/-- Embedding of `PTXStructuralElement.rel_path`: path relative to the
parent, `os.path.join(foldername, filename)`. -/
def PTXElem.rel_path (e : PTXElem) : String :=
  pjoin e.foldername e.filename

/-- Embedding of `PTXStructuralElement.get_include`. -/
def get_include (e : PTXElem) : String :=
  "<xi:include href=\"" ++ e.rel_path ++ "\" />"

/-- Embedding of `PTXMain.render` (the `basepath` parameter defaults to
`None` and is never read). -/
def renderMain (e : PTXElem) : String :=
  let child_includes := String.intercalate "\n" (e.children.map get_include)
  "<?xml version=\"1.0\" encoding=\"utf-8\"?>\n\n            <pretext xml:lang=\"en-US\" xmlns:xi=\"http://www.w3.org/2001/XInclude\">\n            <!-- we first include a file which contains the docinfo element: -->\n            <xi:include href=\"./docinfo.ptx\" />\n\n            <book xml:id=\"" ++
  e.title_slug ++
  "\">\n                <title>" ++ e.title ++
  "</title>\n\n                <!-- Include frontmatter -->\n                <xi:include href=\"./frontmatter.ptx\" />\n\n                <!-- Include chapters -->\n                " ++
  child_includes ++
  "\n                \n                <!-- Include backmatter -->\n                <xi:include href=\"./backmatter.ptx\" />\n\n            </book>\n            </pretext>\n            "

/-- Embedding of `PTXStructuralElement.render(basepath)` for the three
concrete subclasses. -/
def renderStructural (e : PTXElem) (basepath : String) : String :=
  let en := element_name e.role
  let child_includes := String.intercalate "\n" (e.children.map get_include)
  let question_includes :=
    String.intercalate "\n" (e.questions.map (fun q => q.render basepath))
  "\n        <" ++ en ++ " xml:id=\"" ++ e.xml_id ++
  "\" xmlns:xi=\"http://www.w3.org/2001/XInclude\">\n            <title>" ++
  e.title ++
  "</title>\n            <introduction>\n                " ++
  e.introduction ++ "\n                " ++ question_includes ++
  "\n            </introduction>\n            " ++ child_includes ++
  "\n        </" ++ en ++ ">\n        "

/-- Dynamic dispatch of `render`: `PTXMain` overrides the base method. -/
def renderElem (e : PTXElem) (basepath : String) : String :=
  match e.role with
  | .main => renderMain e
  | _ => renderStructural e basepath

/-- Filesystem operation performed by `make_files`: writing a file, or
`os.makedirs(path, exist_ok=...)`. -/
inductive FsOp where
  | write (path : String) (content : String)
  | makedirs (path : String) (exist_ok : Bool)
deriving DecidableEq

mutual
/-- Embedding of `PTXStructuralElement.make_files(basepath)` as the trace
of filesystem operations it performs, in order: write this element's file
into `basepath`, then for each child in order create its folder and recurse
into it. -/
def make_files : PTXElem → String → List FsOp
  | e@(.mk _ _ _ _ _ children _ _ _), basepath =>
    FsOp.write (pjoin basepath e.filename) (renderElem e basepath)
      :: makeFilesKids children basepath

/-- Trace of the child loop of `make_files`. -/
def makeFilesKids : List PTXElem → String → List FsOp
  | [], _ => []
  | c :: cs, basepath =>
    FsOp.makedirs (pjoin basepath c.foldername) true
      :: (make_files c (pjoin basepath c.foldername) ++ makeFilesKids cs basepath)
end

/-- Filesystem state: existing directories and written files (a written
file is appended, modelling `open(path, "w")` truncation as a rewrite). -/
structure FS where
  dirs : List String
  files : List (String × String)

/-- Effect of one operation: `makedirs` with `exist_ok=False` fails when
the directory exists (`FileExistsError`), with `exist_ok=True` it never
fails; a write records the file. -/
def runOp (fs : FS) : FsOp → Except BuildError FS
  | .write p c => .ok ⟨fs.dirs, fs.files ++ [(p, c)]⟩
  | .makedirs p exOk =>
    if p ∈ fs.dirs ∧ exOk = false then .error .fsError
    else .ok ⟨fs.dirs ++ [p], fs.files⟩

/-- Effect of a trace, stopping at the first failure. -/
def runOps (fs : FS) : List FsOp → Except BuildError FS
  | [] => .ok fs
  | op :: ops =>
    match runOp fs op with
    | .error e => .error e
    | .ok fs2 => runOps fs2 ops

/-- Entry of a source directory listing, in `os.listdir` order: a
subdirectory with its own listing, or a file with its content. -/
inductive SrcEntry where
  | dir (name : String) (entries : List SrcEntry)
  | file (name : String) (data : FileData)

/-- Name of a listing entry. -/
def SrcEntry.name : SrcEntry → String
  | .dir n _ => n
  | .file n _ => n

/-- Lookup of an entry by name, modelling the membership test
`"gitsync_category.xml" in paths` followed by `open` of that path (names in
a real directory listing are unique, so first match suffices). -/
def findEntry (nm : String) : List SrcEntry → Option SrcEntry
  | [] => none
  | e :: es => if e.name = nm then some e else findEntry nm es

/-- Extraction of the title from a parsed category-descriptor file:
`ET.parse(f).xpath("/quiz/question/category/text")`, then
`tag[0].text.split('/')[-1]`.  A parse failure, an empty XPath result
(`IndexError`) and a missing text (`AttributeError` on `None`) are all
fatal, grouped as `resourceParse`. -/
def categoryTitle : FileData → Except BuildError String
  | .unparseable => .error .resourceParse
  | .xml doc =>
    match (xpathDoc doc ["quiz", "question", "category", "text"]).head? with
    | none => .error .resourceParse
    | some nd =>
      match nd.text with
      | none => .error .resourceParse
      | some s => .ok (lastSeg s)

/-- Title resolution at the top of `compile_structural_element`: if the
listing contains `gitsync_category.xml` the descriptor overrides the
provisional title, otherwise the provisional title stands.  A directory of
that name makes `open` fail with an OS error (`fsError`). -/
def resolveTitle (entries : List SrcEntry) (title : String) : Except BuildError String :=
  match findEntry "gitsync_category.xml" entries with
  | none => .ok title
  | some (.file _ data) => categoryTitle data
  | some (.dir _ _) => .error .fsError

/-- The global dictionary `level_map`; a level outside its keys raises
`KeyError`, embedded as `none`. -/
def level_map : Nat → Option Role
  | 0 => some .main
  | 1 => some .chapter
  | 2 => some .sect
  | 3 => some .subsect
  | _ => none


/-- Contribution of one listing entry to the enclosing element: a child
element (subdirectory recursed into), a question (matching resource file),
or nothing (subdirectory at the depth bound, descriptor file, file with
another extension). -/
inductive Contribution where
  | child (c : PTXElem)
  | question (q : PTXStackQuestion)
  | skip

mutual
/-- Body of the loop of `compile_structural_element` for one entry of the
listing: a subdirectory is recursed into only when `level < 3` (the
recursive call `compile_structural_element(full_path, rel_path, level + 1)`
is inlined here so that the recursion is structural; `compileEntry_dir`
below states that the inlined block is exactly a call of the wrapper); a
file ending in `.xml` other than the descriptor becomes a question; any
other entry is skipped. -/
def compileEntry (slugify : String → String) (basepath : String) (level : Nat) :
    SrcEntry → Except BuildError Contribution
  | .dir nm sub =>
    if level < 3 then
      match resolveTitle sub nm with
      | .error e => .error e
      | .ok t2 =>
        match level_map (level + 1) with
        | none => .error .keyError
        | some role =>
          match compileEntries slugify (pjoin basepath nm) (level + 1) sub with
          | .error e => .error e
          | .ok (cs, qs) => .ok (.child (mkElemOfRole slugify role t2 "" qs cs))
    else .ok .skip
  | .file nm data =>
    if strEndsWith nm ".xml" && nm != "gitsync_category.xml" then
      match PTXStackQuestion.init slugify (pjoin basepath nm) data with
      | .error e => .error e
      | .ok q => .ok (.question q)
    else .ok .skip

/-- Embedding of the loop of `compile_structural_element` over the whole
listing, carrying the two append-only lists `children` and `questions` in
listing order; the first failure aborts. -/
def compileEntries (slugify : String → String) (basepath : String) (level : Nat) :
    List SrcEntry → Except BuildError (List PTXElem × List PTXStackQuestion)
  | [] => .ok ([], [])
  | e :: rest =>
    match compileEntry slugify basepath level e with
    | .error er => .error er
    | .ok contrib =>
      match compileEntries slugify basepath level rest with
      | .error er => .error er
      | .ok (cs, qs) =>
        match contrib with
        | .child c => .ok (c :: cs, qs)
        | .question q => .ok (cs, q :: qs)
        | .skip => .ok (cs, qs)
end

/-- Embedding of `compile_structural_element(basepath, title, level)`: the
directory listing stands as the `entries` argument; resolve the title from
the descriptor if present, look up the role for the level, run the loop,
and build the element (construction with the final lists is equivalent to
construction followed by the source's append-only `add_child` and
`add_question` calls). -/
def compile_structural_element (slugify : String → String) (basepath : String)
    (entries : List SrcEntry) (title : String) (level : Nat) :
    Except BuildError PTXElem :=
  match resolveTitle entries title with
  | .error e => .error e
  | .ok t2 =>
    match level_map level with
    | none => .error .keyError
    | some role =>
      match compileEntries slugify basepath level entries with
      | .error e => .error e
      | .ok (cs, qs) => .ok (mkElemOfRole slugify role t2 "" qs cs)

/-- Unfolding of the loop body at a subdirectory: the inlined block in
`compileEntry` is exactly the source's recursive call
`compile_structural_element(full_path, rel_path, level + 1)`. -/
theorem compileEntry_dir (slugify : String → String) (basepath : String)
    (level : Nat) (nm : String) (sub : List SrcEntry) :
    compileEntry slugify basepath level (.dir nm sub) =
      if level < 3 then
        match compile_structural_element slugify (pjoin basepath nm) sub nm (level + 1) with
        | .error e => .error e
        | .ok child => .ok (.child child)
      else .ok .skip := by
  show (if level < 3 then _ else _) = _
  by_cases h : level < 3
  · simp only [if_pos h, compile_structural_element]
    cases resolveTitle sub nm with
    | error e => rfl
    | ok t2 =>
      cases level_map (level + 1) with
      | none => rfl
      | some role =>
        cases compileEntries slugify (pjoin basepath nm) (level + 1) sub with
        | error e => rfl
        | ok p => cases p; rfl
  · simp only [if_neg h]

mutual
/-- Depth of an element tree: a leaf has depth 0, otherwise one more than
the deepest child. -/
def elemDepth : PTXElem → Nat
  | .mk _ _ _ _ _ children _ _ _ => elemDepthKids children

/-- Depth contributed by a child list. -/
def elemDepthKids : List PTXElem → Nat
  | [] => 0
  | c :: cs => max (1 + elemDepth c) (elemDepthKids cs)
end

mutual
/-- Number of structural elements in an element tree (questions are not
elements). -/
def elemCount : PTXElem → Nat
  | .mk _ _ _ _ _ children _ _ _ => 1 + elemCountKids children

/-- Element count of a child list. -/
def elemCountKids : List PTXElem → Nat
  | [] => 0
  | c :: cs => elemCount c + elemCountKids cs
end

mutual
/-- Depth below a source directory contributed by one listing entry: a file
contributes 0, a subdirectory one more than its own listing. -/
def srcDepthEntry : SrcEntry → Nat
  | .dir _ sub => 1 + srcDepth sub
  | .file _ _ => 0

/-- Depth of a source directory given its listing: 0 when no subdirectory. -/
def srcDepth : List SrcEntry → Nat
  | [] => 0
  | e :: rest => max (srcDepthEntry e) (srcDepth rest)
end

mutual
/-- Number of directories the builder recurses into from one listing entry
of a directory whose element sits at `level`: a subdirectory is entered
(and counted) only when `level < 3`. -/
def dirsVisitedEntry (level : Nat) : SrcEntry → Nat
  | .dir _ sub => if level < 3 then 1 + dirsVisited (level + 1) sub else 0
  | .file _ _ => 0

/-- Number of directories the builder recurses into from a listing. -/
def dirsVisited (level : Nat) : List SrcEntry → Nat
  | [] => 0
  | e :: rest => dirsVisitedEntry level e + dirsVisited level rest
end

/-- Whether a listing entry is treated as a question resource by the loop:
a file whose name ends in `.xml` and is not the descriptor. -/
def isQuestionFile : SrcEntry → Bool
  | .dir _ _ => false
  | .file nm _ => strEndsWith nm ".xml" && nm != "gitsync_category.xml"

/-- Names of the question-resource files of a listing, in listing order. -/
def questionFileNames (entries : List SrcEntry) : List String :=
  (entries.filter isQuestionFile).map SrcEntry.name

/-- Whether a listing entry is a subdirectory. -/
def isDirEntry : SrcEntry → Bool
  | .dir _ _ => true
  | .file _ _ => false

/-- Names of the subdirectories of a listing, in listing order. -/
def dirEntryNames (entries : List SrcEntry) : List String :=
  (entries.filter isDirEntry).map SrcEntry.name

/-- Whether a question-resource file parses far enough for
`PTXStackQuestion.__init__` to succeed: the file parses and the query
`/quiz/question/name/text` matches at least one element. -/
def goodQuestion : FileData → Bool
  | .unparseable => false
  | .xml doc => (xpathDoc doc ["quiz", "question", "name", "text"]).head?.isSome

/-- Whether the descriptor, if present in a listing, lets title resolution
succeed. -/
def descriptorOk (entries : List SrcEntry) : Bool :=
  match findEntry "gitsync_category.xml" entries with
  | none => true
  | some (.file _ d) =>
    match categoryTitle d with
    | .ok _ => true
    | .error _ => false
  | some (.dir _ _) => false

mutual
/-- Well-formedness of one listing entry for a directory at `level`: a
subdirectory entered by the builder must be recursively well formed, and a
question-resource file must parse. -/
def wfEntry (level : Nat) : SrcEntry → Bool
  | .dir _ sub => if level < 3 then descriptorOk sub && wfList (level + 1) sub else true
  | .file nm data =>
    if strEndsWith nm ".xml" && nm != "gitsync_category.xml" then goodQuestion data
    else true

/-- Well-formedness of a listing for a directory at `level`. -/
def wfList (level : Nat) : List SrcEntry → Bool
  | [] => true
  | e :: rest => wfEntry level e && wfList level rest
end

/-- Characters of a string determine it. -/
theorem strData_eq_nil_iff (s : String) : s.data = [] ↔ s = "" := by
  constructor
  · intro h
    cases s with
    | mk l => exact congrArg String.mk h
  · intro h
    subst h
    rfl

/-- Appending on the right of a nonempty string keeps the first character. -/
theorem head_data_append (f r : String) (h : f.data ≠ []) :
    (f ++ r).data.head? = f.data.head? := by
  rw [String.data_append]
  exact List.head?_append_of_ne_nil _ h

/-- Appending on the left of a nonempty string keeps the last character. -/
theorem getLast_data_append (x y : String) (h : y.data ≠ []) :
    (x ++ y).data.getLast? = y.data.getLast? := by
  rw [String.data_append]
  exact List.getLast?_append_of_ne_nil _ h

/-- Appending a nonempty string gives a nonempty string. -/
theorem data_append_ne_nil (x y : String) (h : y.data ≠ []) : (x ++ y).data ≠ [] := by
  rw [String.data_append]
  simp [h]

/-- Middle case of `pjoin`: neither branch condition holds, so the
separator is inserted. -/
theorem pjoin_step (x y : String) (hy : ¬ y.data.head? = some '/')
    (hx : ¬ (x.data = [] ∨ x.data.getLast? = some '/')) :
    pjoin x y = x ++ "/" ++ y := by
  rw [pjoin, if_neg hy, if_neg hx]

/-- Associativity of `os.path.join`: joining a base with an already joined
relative path is joining step by step.  This is what lets an inclusion
reference `foldername/filename` resolve against the parent's output
directory to the child's own output path. -/
theorem pjoin_assoc (a f g : String) : pjoin a (pjoin f g) = pjoin (pjoin a f) g := by
  by_cases hg : g.data.head? = some '/'
  · rw [show pjoin f g = g from by simp [pjoin, hg],
      show pjoin a g = g from by simp [pjoin, hg],
      show pjoin (pjoin a f) g = g from by simp [pjoin, hg]]
  · by_cases hf0 : f.data = []
    · have hf : f = "" := (strData_eq_nil_iff f).mp hf0
      subst hf
      have h1 : pjoin "" g = g := by
        rw [pjoin, if_neg hg, if_pos (Or.inl rfl), String.empty_append]
      rw [h1]
      by_cases hea : a.data = [] ∨ a.data.getLast? = some '/'
      · have h2 : pjoin a "" = a := by
          rw [pjoin, if_neg (by simp), if_pos hea, String.append_empty]
        rw [h2]
      · have h2 : pjoin a "" = a ++ "/" := by
          rw [pjoin, if_neg (by simp), if_neg hea, String.append_empty]
        have h3 : pjoin a g = a ++ "/" ++ g := by
          rw [pjoin, if_neg hg, if_neg hea]
        have h4 : pjoin (a ++ "/") g = a ++ "/" ++ g := by
          rw [pjoin, if_neg hg, if_pos (Or.inr (by
            rw [getLast_data_append a "/" (by simp [show ("/" : String).data = ['/'] from rfl])]
            rfl))]
        rw [h2, h3, h4]
    · by_cases hfl : f.data.getLast? = some '/'
      · have hin : pjoin f g = f ++ g := by
          rw [pjoin, if_neg hg, if_pos (Or.inr hfl)]
        rw [hin]
        by_cases hfh : f.data.head? = some '/'
        · have h1 : pjoin a (f ++ g) = f ++ g := by
            rw [pjoin, if_pos (by rw [head_data_append f g hf0]; exact hfh)]
          have h2 : pjoin a f = f := by rw [pjoin, if_pos hfh]
          rw [h1, h2, pjoin, if_neg hg, if_pos (Or.inr hfl)]
        · have hfgh : ¬ (f ++ g).data.head? = some '/' := by
            rw [head_data_append f g hf0]; exact hfh
          by_cases hea : a.data = [] ∨ a.data.getLast? = some '/'
          · have h1 : pjoin a (f ++ g) = a ++ (f ++ g) := by
              rw [pjoin, if_neg hfgh, if_pos hea]
            have h2 : pjoin a f = a ++ f := by rw [pjoin, if_neg hfh, if_pos hea]
            have h3 : pjoin (a ++ f) g = (a ++ f) ++ g := by
              rw [pjoin, if_neg hg, if_pos (Or.inr (by
                rw [getLast_data_append a f hf0]; exact hfl))]
            rw [h1, h2, h3, String.append_assoc]
          · have h1 : pjoin a (f ++ g) = a ++ "/" ++ (f ++ g) := by
              rw [pjoin, if_neg hfgh, if_neg hea]
            have h2 : pjoin a f = a ++ "/" ++ f := by rw [pjoin, if_neg hfh, if_neg hea]
            have h3 : pjoin (a ++ "/" ++ f) g = (a ++ "/" ++ f) ++ g := by
              rw [pjoin, if_neg hg, if_pos (Or.inr (by
                rw [getLast_data_append (a ++ "/") f hf0]; exact hfl))]
            rw [h1, h2, h3]
            simp only [String.append_assoc]
      · have hin : pjoin f g = f ++ "/" ++ g := by
          rw [pjoin, if_neg hg, if_neg (by simp [hf0, hfl])]
        rw [hin]
        have hfs : (f ++ "/").data ≠ [] :=
          data_append_ne_nil f "/" (by simp [show ("/" : String).data = ['/'] from rfl])
        have hth : (f ++ "/" ++ g).data.head? = f.data.head? := by
          rw [head_data_append (f ++ "/") g hfs, head_data_append f "/" hf0]
        by_cases hfh : f.data.head? = some '/'
        · have h1 : pjoin a (f ++ "/" ++ g) = f ++ "/" ++ g := by
            rw [pjoin, if_pos (by rw [hth]; exact hfh)]
          have h2 : pjoin a f = f := by rw [pjoin, if_pos hfh]
          rw [h1, h2, hin]
        · have hth2 : ¬ (f ++ "/" ++ g).data.head? = some '/' := by rw [hth]; exact hfh
          by_cases hea : a.data = [] ∨ a.data.getLast? = some '/'
          · have h1 : pjoin a (f ++ "/" ++ g) = a ++ (f ++ "/" ++ g) := by
              rw [pjoin, if_neg hth2, if_pos hea]
            have h2 : pjoin a f = a ++ f := by rw [pjoin, if_neg hfh, if_pos hea]
            have h3 : pjoin (a ++ f) g = (a ++ f) ++ "/" ++ g := by
              refine pjoin_step (a ++ f) g hg ?_
              push_neg
              refine ⟨data_append_ne_nil a f hf0, ?_⟩
              rw [getLast_data_append a f hf0]
              exact hfl
            rw [h1, h2, h3]
            simp only [String.append_assoc]
          · have h1 : pjoin a (f ++ "/" ++ g) = a ++ "/" ++ (f ++ "/" ++ g) := by
              rw [pjoin, if_neg hth2, if_neg hea]
            have h2 : pjoin a f = a ++ "/" ++ f := by rw [pjoin, if_neg hfh, if_neg hea]
            have h3 : pjoin (a ++ "/" ++ f) g = (a ++ "/" ++ f) ++ "/" ++ g := by
              refine pjoin_step (a ++ "/" ++ f) g hg ?_
              push_neg
              refine ⟨data_append_ne_nil (a ++ "/") f hf0, ?_⟩
              rw [getLast_data_append (a ++ "/") f hf0]
              exact hfl
            rw [h1, h2, h3]
            simp only [String.append_assoc]

/-- Role stored by `mkElemOfRole`. -/
theorem mkElemOfRole_role (slugify : String → String) (role : Role)
    (t i : String) (qs : List PTXStackQuestion) (cs : List PTXElem) :
    (mkElemOfRole slugify role t i qs cs).role = role := by
  cases role <;> rfl

/-- Title stored by `mkElemOfRole`. -/
theorem mkElemOfRole_title (slugify : String → String) (role : Role)
    (t i : String) (qs : List PTXStackQuestion) (cs : List PTXElem) :
    (mkElemOfRole slugify role t i qs cs).title = t := by
  cases role <;> rfl

/-- Questions stored by `mkElemOfRole`. -/
theorem mkElemOfRole_questions (slugify : String → String) (role : Role)
    (t i : String) (qs : List PTXStackQuestion) (cs : List PTXElem) :
    (mkElemOfRole slugify role t i qs cs).questions = qs := by
  cases role <;> rfl

/-- Children stored by `mkElemOfRole`. -/
theorem mkElemOfRole_children (slugify : String → String) (role : Role)
    (t i : String) (qs : List PTXStackQuestion) (cs : List PTXElem) :
    (mkElemOfRole slugify role t i qs cs).children = cs := by
  cases role <;> rfl

/-- Depth of an element built by `mkElemOfRole` is the depth of its child
list. -/
theorem elemDepth_mkElemOfRole (slugify : String → String) (role : Role)
    (t i : String) (qs : List PTXStackQuestion) (cs : List PTXElem) :
    elemDepth (mkElemOfRole slugify role t i qs cs) = elemDepthKids cs := by
  cases role <;> rfl

/-- Count of an element built by `mkElemOfRole` is one more than the count
of its child list. -/
theorem elemCount_mkElemOfRole (slugify : String → String) (role : Role)
    (t i : String) (qs : List PTXStackQuestion) (cs : List PTXElem) :
    elemCount (mkElemOfRole slugify role t i qs cs) = 1 + elemCountKids cs := by
  cases role <;> rfl

/-- Inversion of the builder: a successful run resolves the title, finds a
role for the level, runs the loop, and assembles the element from the
results. -/
theorem compile_ok_iff (slugify : String → String) (bp : String)
    (entries : List SrcEntry) (t : String) (level : Nat) (e : PTXElem) :
    compile_structural_element slugify bp entries t level = .ok e ↔
    ∃ t2 role cs qs, resolveTitle entries t = .ok t2 ∧ level_map level = some role ∧
      compileEntries slugify bp level entries = .ok (cs, qs) ∧
      e = mkElemOfRole slugify role t2 "" qs cs := by
  unfold compile_structural_element
  cases hr : resolveTitle entries t with
  | error er => simp
  | ok t2 =>
    cases hl : level_map level with
    | none => simp
    | some role =>
      cases hc : compileEntries slugify bp level entries with
      | error er => simp
      | ok p =>
        cases p with
        | mk cs qs =>
          constructor
          · intro h
            exact ⟨t2, role, cs, qs, rfl, rfl, rfl, (Except.ok.inj h).symm⟩
          · rintro ⟨t2x, rolex, csx, qsx, hrx, hlx, hcx, he⟩
            obtain rfl : t2 = t2x := Except.ok.inj hrx
            obtain rfl : role = rolex := Option.some.inj hlx
            obtain ⟨rfl, rfl⟩ : cs = csx ∧ qs = qsx := Prod.mk.injEq .. ▸ Except.ok.inj hcx
            simp [he]

/-- C9: the Leaf Question Node constructor (`PTXStackQuestion.__init__`,
the `extract_title` contract) fails with a `ResourceParseError` whenever
the resource file is not parseable as the expected schema, and whenever the
expected nested title-bearing node (`/quiz/question/name/text`) is absent;
the failure is an error value surfaced to the caller, so no fallback title
is synthesized in either case. -/
theorem C9_extract_title_error :
    (∀ (slugify : String → String) (fp : String),
      PTXStackQuestion.init slugify fp .unparseable = .error .resourceParse) ∧
    (∀ (slugify : String → String) (fp : String) (doc : XmlTree),
      (xpathDoc doc ["quiz", "question", "name", "text"]).head? = none →
      PTXStackQuestion.init slugify fp (.xml doc) = .error .resourceParse) := by
  constructor
  · intro slugify fp
    rfl
  · intro slugify fp doc h
    simp [PTXStackQuestion.init, h]

/-- Witness for C9 at a concrete unparseable file and at a concrete parsed
file with no `/quiz/question/name/text` node. -/
theorem C9_witness :
    PTXStackQuestion.init (fun s => s) "source/stack/q1.xml" .unparseable
        = .error .resourceParse ∧
    PTXStackQuestion.init (fun s => s) "source/stack/q1.xml"
        (.xml (.node "html" none [])) = .error .resourceParse :=
  ⟨C9_extract_title_error.1 (fun s => s) "source/stack/q1.xml",
   C9_extract_title_error.2 (fun s => s) "source/stack/q1.xml"
     (.node "html" none []) rfl⟩

/-- C3: when the listing of a directory contains the category-descriptor
file `gitsync_category.xml` whose extracted category string is `s`, every
successful build of that directory gives the resulting node the title
`lastSeg s`, the last slash-separated segment of `s`, whatever the
provisional title `t` (that is, whatever the directory's own name). -/
theorem C3_descriptor_override (slugify : String → String) (bp : String)
    (entries : List SrcEntry) (level : Nat) (dn : String) (doc nd : XmlTree)
    (s : String)
    (hfind : findEntry "gitsync_category.xml" entries = some (.file dn (.xml doc)))
    (hx : (xpathDoc doc ["quiz", "question", "category", "text"]).head? = some nd)
    (ht : nd.text = some s) :
    ∀ (t : String) (e : PTXElem),
      compile_structural_element slugify bp entries t level = .ok e →
      e.title = lastSeg s := by
  intro t e h
  obtain ⟨t2, role, cs, qs, hr, hl, hc, he⟩ :=
    (compile_ok_iff slugify bp entries t level e).mp h
  have hres : resolveTitle entries t = .ok (lastSeg s) := by
    simp [resolveTitle, hfind, categoryTitle, hx, ht]
  rw [hres] at hr
  obtain rfl : t2 = lastSeg s := (Except.ok.inj hr).symm
  rw [he, mkElemOfRole_title]

/-- Witness for C3: a directory named `Unit 9` holding a descriptor with
category string `A/B/Sales` builds to a node titled `Sales`. -/
theorem C3_witness :
    (mkPTXChapter (fun s => s) "Sales" "" [] []).title = lastSeg "A/B/Sales" :=
  C3_descriptor_override (fun s => s) "source/stack/Unit 9"
    [.file "gitsync_category.xml" (.xml (.node "quiz" none
      [.node "question" none [.node "category" none
        [.node "text" (some "A/B/Sales") []]]]))]
    1 "gitsync_category.xml"
    (.node "quiz" none
      [.node "question" none [.node "category" none
        [.node "text" (some "A/B/Sales") []]]])
    (.node "text" (some "A/B/Sales") []) "A/B/Sales" rfl rfl rfl "Unit 9"
    (mkPTXChapter (fun s => s) "Sales" "" [] []) rfl

/-- C5: the identifier embedded in the serialized form of every structural
element is the role-determined prefix concatenated with the slug: the
stored `xml_id` is `ch-`/`sec-`/`subsec-` followed by the slug for Chapter,
Section and Subsection, and the rendered text embeds exactly that value in
its opening tag's `xml:id` attribute; the Root embeds the bare slug (its
`title_slug`) as the `xml:id` of the `book` element, with no prefix. -/
theorem C5_identifier (slugify : String → String) (t i : String)
    (qs : List PTXStackQuestion) (cs : List PTXElem) (b : String) :
    ((mkPTXChapter slugify t i qs cs).xml_id = "ch-" ++ slugify t ∧
      ∃ rest, renderElem (mkPTXChapter slugify t i qs cs) b =
        "\n        <chapter xml:id=\"" ++ ("ch-" ++ slugify t) ++ "\"" ++ rest) ∧
    ((mkPTXSection slugify t i qs cs).xml_id = "sec-" ++ slugify t ∧
      ∃ rest, renderElem (mkPTXSection slugify t i qs cs) b =
        "\n        <section xml:id=\"" ++ ("sec-" ++ slugify t) ++ "\"" ++ rest) ∧
    ((mkPTXSubsection slugify t i qs cs).xml_id = "subsec-" ++ slugify t ∧
      ∃ rest, renderElem (mkPTXSubsection slugify t i qs cs) b =
        "\n        <subsection xml:id=\"" ++ ("subsec-" ++ slugify t) ++ "\"" ++ rest) ∧
    ((mkPTXMain slugify t i qs cs).title_slug = slugify t ∧
      ∃ rest, renderElem (mkPTXMain slugify t i qs cs) b =
        "<?xml version=\"1.0\" encoding=\"utf-8\"?>\n\n            <pretext xml:lang=\"en-US\" xmlns:xi=\"http://www.w3.org/2001/XInclude\">\n            <!-- we first include a file which contains the docinfo element: -->\n            <xi:include href=\"./docinfo.ptx\" />\n\n            <book xml:id=\"" ++
          slugify t ++ "\">" ++ rest) := by
  refine ⟨⟨rfl, ?_⟩, ⟨rfl, ?_⟩, ⟨rfl, ?_⟩, ⟨rfl, ?_⟩⟩
  · refine ⟨" xmlns:xi=\"http://www.w3.org/2001/XInclude\">\n            <title>" ++ t ++
      "</title>\n            <introduction>\n                " ++ i ++
      "\n                " ++
      String.intercalate "\n" (qs.map (fun q => q.render b)) ++
      "\n            </introduction>\n            " ++
      String.intercalate "\n" (cs.map get_include) ++
      "\n        </" ++ "chapter" ++ ">\n        ", ?_⟩
    simp only [renderElem, mkPTXChapter, PTXElem.role, renderStructural, element_name,
      PTXElem.xml_id, PTXElem.title, PTXElem.introduction, PTXElem.questions,
      PTXElem.children]
    rw [show ("\n        <chapter xml:id=\"" : String)
        = "\n        <" ++ "chapter" ++ " xml:id=\"" from rfl,
      show ("\" xmlns:xi=\"http://www.w3.org/2001/XInclude\">\n            <title>" : String)
        = "\"" ++ " xmlns:xi=\"http://www.w3.org/2001/XInclude\">\n            <title>" from rfl]
    simp only [String.append_assoc]
  · refine ⟨" xmlns:xi=\"http://www.w3.org/2001/XInclude\">\n            <title>" ++ t ++
      "</title>\n            <introduction>\n                " ++ i ++
      "\n                " ++
      String.intercalate "\n" (qs.map (fun q => q.render b)) ++
      "\n            </introduction>\n            " ++
      String.intercalate "\n" (cs.map get_include) ++
      "\n        </" ++ "section" ++ ">\n        ", ?_⟩
    simp only [renderElem, mkPTXSection, PTXElem.role, renderStructural, element_name,
      PTXElem.xml_id, PTXElem.title, PTXElem.introduction, PTXElem.questions,
      PTXElem.children]
    rw [show ("\n        <section xml:id=\"" : String)
        = "\n        <" ++ "section" ++ " xml:id=\"" from rfl,
      show ("\" xmlns:xi=\"http://www.w3.org/2001/XInclude\">\n            <title>" : String)
        = "\"" ++ " xmlns:xi=\"http://www.w3.org/2001/XInclude\">\n            <title>" from rfl]
    simp only [String.append_assoc]
  · refine ⟨" xmlns:xi=\"http://www.w3.org/2001/XInclude\">\n            <title>" ++ t ++
      "</title>\n            <introduction>\n                " ++ i ++
      "\n                " ++
      String.intercalate "\n" (qs.map (fun q => q.render b)) ++
      "\n            </introduction>\n            " ++
      String.intercalate "\n" (cs.map get_include) ++
      "\n        </" ++ "subsection" ++ ">\n        ", ?_⟩
    simp only [renderElem, mkPTXSubsection, PTXElem.role, renderStructural, element_name,
      PTXElem.xml_id, PTXElem.title, PTXElem.introduction, PTXElem.questions,
      PTXElem.children]
    rw [show ("\n        <subsection xml:id=\"" : String)
        = "\n        <" ++ "subsection" ++ " xml:id=\"" from rfl,
      show ("\" xmlns:xi=\"http://www.w3.org/2001/XInclude\">\n            <title>" : String)
        = "\"" ++ " xmlns:xi=\"http://www.w3.org/2001/XInclude\">\n            <title>" from rfl]
    simp only [String.append_assoc]
  · refine ⟨"\n                <title>" ++ t ++
      "</title>\n\n                <!-- Include frontmatter -->\n                <xi:include href=\"./frontmatter.ptx\" />\n\n                <!-- Include chapters -->\n                " ++
      String.intercalate "\n" (cs.map get_include) ++
      "\n                \n                <!-- Include backmatter -->\n                <xi:include href=\"./backmatter.ptx\" />\n\n            </book>\n            </pretext>\n            ", ?_⟩
    simp only [renderElem, mkPTXMain, PTXElem.role, renderMain, PTXElem.title_slug,
      PTXElem.title, PTXElem.children]
    rw [show ("\">\n                <title>" : String)
        = "\">" ++ "\n                <title>" from rfl]
    simp only [String.append_assoc]

/-- C7: `render` is a pure function of the node's current field values.
The rendered text is determined by exactly the fields the method reads —
role, `title`, `title_slug`, `xml_id`, `introduction`, the stored fields
of each question, and each child's `foldername`/`filename` (all that
`get_include` reads) — so two calls on the same node without intervening
mutation (two nodes whose fields agree) yield identical text. -/
theorem C7_render_pure (a b : PTXElem) (bp : String)
    (hrole : a.role = b.role) (htitle : a.title = b.title)
    (hslug : a.title_slug = b.title_slug) (hid : a.xml_id = b.xml_id)
    (hintro : a.introduction = b.introduction) (hqs : a.questions = b.questions)
    (hch : a.children.map (fun c => (c.foldername, c.filename))
         = b.children.map (fun c => (c.foldername, c.filename))) :
    renderElem a bp = renderElem b bp := by
  have hpair : ∀ (l : List PTXElem), l.map get_include
      = (l.map (fun c => (c.foldername, c.filename))).map
          (fun p => "<xi:include href=\"" ++ pjoin p.1 p.2 ++ "\" />") := by
    intro l
    rw [List.map_map]
    rfl
  have hginc : a.children.map get_include = b.children.map get_include := by
    rw [hpair, hpair, hch]
  unfold renderElem
  rw [hrole]
  cases b.role with
  | main =>
    unfold renderMain
    rw [hslug, htitle, hginc]
  | chapter =>
    unfold renderStructural
    rw [hrole, hid, htitle, hintro, hqs, hginc]
  | sect =>
    unfold renderStructural
    rw [hrole, hid, htitle, hintro, hqs, hginc]
  | subsect =>
    unfold renderStructural
    rw [hrole, hid, htitle, hintro, hqs, hginc]

/-- Witness for C7 at a concrete node: the two calls coincide. -/
theorem C7_witness :
    renderElem (mkPTXChapter (fun s => s) "Unit 1" "intro" [] []) "source"
      = renderElem (mkPTXChapter (fun s => s) "Unit 1" "intro" [] []) "source" :=
  C7_render_pure (mkPTXChapter (fun s => s) "Unit 1" "intro" [] [])
    (mkPTXChapter (fun s => s) "Unit 1" "intro" [] []) "source"
    rfl rfl rfl rfl rfl rfl rfl

/-- Operations that can never fail: every write, and `makedirs` with
`exist_ok=True`. -/
def opOk : FsOp → Bool
  | .write _ _ => true
  | .makedirs _ exOk => exOk

/-- A non-failing operation succeeds on every filesystem state. -/
theorem runOp_ok (fs : FS) (op : FsOp) (h : opOk op = true) :
    ∃ fs2, runOp fs op = .ok fs2 := by
  cases op with
  | write p c => exact ⟨_, rfl⟩
  | makedirs p ex =>
    simp only [opOk] at h
    subst h
    refine ⟨⟨fs.dirs ++ [p], fs.files⟩, ?_⟩
    simp [runOp]

mutual
/-- Every operation in the trace of `make_files` is non-failing (all its
directory creations pass `exist_ok=True`). -/
theorem make_files_all_opOk : ∀ (n : PTXElem) (bp : String),
    (make_files n bp).all opOk = true
  | .mk r t ts i qs children f fn x, bp => by
    simp only [make_files, List.all_cons, opOk, Bool.true_and]
    exact makeFilesKids_all_opOk children bp

/-- Every operation in the child-loop trace is non-failing. -/
theorem makeFilesKids_all_opOk : ∀ (cs : List PTXElem) (bp : String),
    (makeFilesKids cs bp).all opOk = true
  | [], bp => rfl
  | c :: cs, bp => by
    simp only [makeFilesKids, List.all_cons, List.all_append, opOk, Bool.true_and,
      Bool.and_eq_true]
    exact ⟨make_files_all_opOk c (pjoin bp c.foldername), makeFilesKids_all_opOk cs bp⟩
end

/-- A trace of non-failing operations runs to success from every state. -/
theorem runOps_ok_of_all (ops : List FsOp) : ∀ (fs : FS), ops.all opOk = true →
    ∃ fs2, runOps fs ops = .ok fs2 := by
  induction ops with
  | nil => exact fun fs _ => ⟨fs, rfl⟩
  | cons op ops ih =>
    intro fs h
    rw [List.all_cons, Bool.and_eq_true] at h
    obtain ⟨fs1, hop⟩ := runOp_ok fs op h.1
    obtain ⟨fs2, hops⟩ := ih fs1 h.2
    exact ⟨fs2, by simp [runOps, hop, hops]⟩

/-- Unfolding of `make_files`: the element's own file is the head of the
trace. -/
theorem make_files_eq (n : PTXElem) (bp : String) :
    make_files n bp = FsOp.write (pjoin bp n.filename) (renderElem n bp)
      :: makeFilesKids n.children bp := by
  cases n
  rfl

/-- The child loop is one directory creation followed by the child's own
trace, child by child in order. -/
theorem makeFilesKids_eq (cs : List PTXElem) (bp : String) :
    makeFilesKids cs bp = (cs.map (fun c =>
      FsOp.makedirs (pjoin bp c.foldername) true
        :: make_files c (pjoin bp c.foldername))).flatten := by
  induction cs with
  | nil => rfl
  | cons c cs ih => simp [makeFilesKids, ih]

/-- C8: `write_tree` (`make_files`) writes `render(node)` to
`basepath/node.file_name` as the very first operation of its trace — before
any child's folder is created or populated — and then, for each child in
order, creates `basepath/child.folder_name` with `exist_ok=True` and
recurses into it; because every directory creation passes `exist_ok=True`,
replaying the trace on any filesystem state (in particular one where the
directories already exist from a prior partial run) never fails. -/
theorem C8_write_tree (n : PTXElem) (basepath : String) :
    make_files n basepath =
      FsOp.write (pjoin basepath n.filename) (renderElem n basepath)
        :: (n.children.map (fun c =>
              FsOp.makedirs (pjoin basepath c.foldername) true
                :: make_files c (pjoin basepath c.foldername))).flatten ∧
    ∀ fs : FS, ∃ fs2, runOps fs (make_files n basepath) = .ok fs2 := by
  constructor
  · rw [make_files_eq, makeFilesKids_eq]
  · intro fs
    exact runOps_ok_of_all _ fs (make_files_all_opOk n basepath)

/-- The write of each child's file belongs to the child-loop trace. -/
theorem kids_write_mem (cs : List PTXElem) (bp : String) (c : PTXElem)
    (hm : c ∈ cs) :
    FsOp.write (pjoin (pjoin bp c.foldername) c.filename)
      (renderElem c (pjoin bp c.foldername)) ∈ makeFilesKids cs bp := by
  induction cs with
  | nil => cases hm
  | cons d ds ih =>
    rcases List.mem_cons.mp hm with h | h
    · subst h
      rw [makeFilesKids, make_files_eq]
      simp
    · rw [makeFilesKids]
      simp only [List.mem_cons, List.mem_append]
      exact Or.inr (Or.inr (ih h))

/-- C1: for every node `n` and child `c`, the inclusion reference embedded
in `render(n)` for `c` is `get_include c`, whose href is
`c.foldername/c.filename` (`rel_path`); `make_files n basepath` writes
`n`'s own file into the directory `basepath`, and resolving the href
against that directory — `pjoin basepath (rel_path c)` — gives exactly the
path at which the recursion writes `c`'s own file,
`pjoin (pjoin basepath c.foldername) c.filename`. -/
theorem C1_include_resolves (n : PTXElem) (basepath : String) (c : PTXElem)
    (hc : c ∈ n.children) :
    get_include c = "<xi:include href=\"" ++ pjoin c.foldername c.filename ++ "\" />" ∧
    pjoin basepath c.rel_path = pjoin (pjoin basepath c.foldername) c.filename ∧
    FsOp.write (pjoin basepath n.filename) (renderElem n basepath) ∈ make_files n basepath ∧
    FsOp.write (pjoin (pjoin basepath c.foldername) c.filename)
        (renderElem c (pjoin basepath c.foldername)) ∈ make_files n basepath := by
  refine ⟨rfl, ?_, ?_, ?_⟩
  · unfold PTXElem.rel_path
    exact pjoin_assoc basepath c.foldername c.filename
  · rw [make_files_eq]
    exact List.mem_cons_self _ _
  · rw [make_files_eq]
    exact List.mem_cons_of_mem _ (kids_write_mem n.children basepath c hc)

/-- Witness for C1 on a one-chapter tree written under `source`. -/
theorem C1_witness :
    get_include (mkPTXChapter (fun s => s) "unit1" "" [] [])
      = "<xi:include href=\""
        ++ pjoin (mkPTXChapter (fun s => s) "unit1" "" [] []).foldername
             (mkPTXChapter (fun s => s) "unit1" "" [] []).filename ++ "\" />" ∧
    pjoin "source" (mkPTXChapter (fun s => s) "unit1" "" [] []).rel_path
      = pjoin (pjoin "source" (mkPTXChapter (fun s => s) "unit1" "" [] []).foldername)
          (mkPTXChapter (fun s => s) "unit1" "" [] []).filename ∧
    FsOp.write (pjoin "source"
        (mkPTXMain (fun s => s) "Stats Gold" ""
          [] [mkPTXChapter (fun s => s) "unit1" "" [] []]).filename)
        (renderElem (mkPTXMain (fun s => s) "Stats Gold" ""
          [] [mkPTXChapter (fun s => s) "unit1" "" [] []]) "source")
      ∈ make_files (mkPTXMain (fun s => s) "Stats Gold" ""
          [] [mkPTXChapter (fun s => s) "unit1" "" [] []]) "source" ∧
    FsOp.write
        (pjoin (pjoin "source" (mkPTXChapter (fun s => s) "unit1" "" [] []).foldername)
          (mkPTXChapter (fun s => s) "unit1" "" [] []).filename)
        (renderElem (mkPTXChapter (fun s => s) "unit1" "" [] [])
          (pjoin "source" (mkPTXChapter (fun s => s) "unit1" "" [] []).foldername))
      ∈ make_files (mkPTXMain (fun s => s) "Stats Gold" ""
          [] [mkPTXChapter (fun s => s) "unit1" "" [] []]) "source" :=
  C1_include_resolves
    (mkPTXMain (fun s => s) "Stats Gold" "" [] [mkPTXChapter (fun s => s) "unit1" "" [] []])
    "source" (mkPTXChapter (fun s => s) "unit1" "" [] [])
    (List.mem_singleton.mpr rfl)

/-- A successfully constructed question stores the path it was built from. -/
theorem init_ok_filepath (slugify : String → String) (fp : String)
    (data : FileData) (q : PTXStackQuestion)
    (h : PTXStackQuestion.init slugify fp data = .ok q) : q.filepath = fp := by
  cases data with
  | unparseable => cases h
  | xml doc =>
    simp only [PTXStackQuestion.init] at h
    split at h
    · cases h
    · rw [← Except.ok.inj h]

/-- Inversion of the loop body at a subdirectory below the depth bound. -/
theorem compileEntry_dir_ok (slugify : String → String) (bp : String)
    (level : Nat) (nm : String) (sub : List SrcEntry) (c : Contribution)
    (hl : level < 3)
    (h : compileEntry slugify bp level (.dir nm sub) = .ok c) :
    ∃ t2 role csx qsx, resolveTitle sub nm = .ok t2 ∧
      level_map (level + 1) = some role ∧
      compileEntries slugify (pjoin bp nm) (level + 1) sub = .ok (csx, qsx) ∧
      c = .child (mkElemOfRole slugify role t2 "" qsx csx) := by
  rw [compileEntry_dir, if_pos hl] at h
  cases hcs : compile_structural_element slugify (pjoin bp nm) sub nm (level + 1) with
  | error er => simp [hcs] at h
  | ok child =>
    rw [hcs] at h
    obtain rfl : Contribution.child child = c := Except.ok.inj h
    obtain ⟨t2, role, csx, qsx, hr, hlm, hce, he⟩ :=
      (compile_ok_iff slugify (pjoin bp nm) sub nm (level + 1) child).mp hcs
    exact ⟨t2, role, csx, qsx, hr, hlm, hce, by rw [he]⟩

/-- At the depth bound a subdirectory contributes nothing. -/
theorem compileEntry_dir_skip (slugify : String → String) (bp : String)
    (level : Nat) (nm : String) (sub : List SrcEntry) (hl : ¬ level < 3) :
    compileEntry slugify bp level (.dir nm sub) = .ok .skip := by
  simp only [compileEntry, if_neg hl]

/-- Inversion of the loop body at a question-resource file. -/
theorem compileEntry_file_ok (slugify : String → String) (bp : String)
    (level : Nat) (nm : String) (data : FileData) (c : Contribution)
    (hq : (strEndsWith nm ".xml" && nm != "gitsync_category.xml") = true)
    (h : compileEntry slugify bp level (.file nm data) = .ok c) :
    ∃ q, PTXStackQuestion.init slugify (pjoin bp nm) data = .ok q ∧
      c = .question q := by
  simp only [compileEntry, if_pos hq] at h
  cases hi : PTXStackQuestion.init slugify (pjoin bp nm) data with
  | error er => simp [hi] at h
  | ok q =>
    rw [hi] at h
    exact ⟨q, rfl, (Except.ok.inj h).symm⟩

/-- A file that is not a question resource contributes nothing. -/
theorem compileEntry_file_skip (slugify : String → String) (bp : String)
    (level : Nat) (nm : String) (data : FileData)
    (hq : ¬ (strEndsWith nm ".xml" && nm != "gitsync_category.xml") = true) :
    compileEntry slugify bp level (.file nm data) = .ok .skip := by
  simp only [compileEntry, if_neg hq]

/-- Inversion of one step of the loop: a successful run of the loop on
`e :: rest` is a successful contribution of `e` followed by a successful
run on `rest`, combined by prepending to the proper list. -/
theorem compileEntries_cons_ok (slugify : String → String) (bp : String)
    (level : Nat) (e : SrcEntry) (rest : List SrcEntry)
    (cs : List PTXElem) (qs : List PTXStackQuestion)
    (h : compileEntries slugify bp level (e :: rest) = .ok (cs, qs)) :
    ∃ c csr qsr, compileEntry slugify bp level e = .ok c ∧
      compileEntries slugify bp level rest = .ok (csr, qsr) ∧
      ((∃ ch, c = .child ch ∧ cs = ch :: csr ∧ qs = qsr) ∨
       (∃ q, c = .question q ∧ cs = csr ∧ qs = q :: qsr) ∨
       (c = .skip ∧ cs = csr ∧ qs = qsr)) := by
  simp only [compileEntries] at h
  cases hc : compileEntry slugify bp level e with
  | error er => simp [hc] at h
  | ok c =>
    rw [hc] at h
    cases hr : compileEntries slugify bp level rest with
    | error er => simp [hr] at h
    | ok p =>
      rw [hr] at h
      cases p with
      | mk csr qsr =>
        cases c with
        | child ch =>
          obtain ⟨h1, h2⟩ := Prod.mk.injEq .. ▸ Except.ok.inj h
          exact ⟨_, csr, qsr, rfl, rfl, Or.inl ⟨ch, rfl, h1.symm, h2.symm⟩⟩
        | question q =>
          obtain ⟨h1, h2⟩ := Prod.mk.injEq .. ▸ Except.ok.inj h
          exact ⟨_, csr, qsr, rfl, rfl, Or.inr (Or.inl ⟨q, rfl, h1.symm, h2.symm⟩)⟩
        | skip =>
          obtain ⟨h1, h2⟩ := Prod.mk.injEq .. ▸ Except.ok.inj h
          exact ⟨_, csr, qsr, rfl, rfl, Or.inr (Or.inr ⟨rfl, h1.symm, h2.symm⟩)⟩

/-- Order preservation of the loop: the questions of a successful run are
the question-resource files of the listing in listing order (witnessed by
their stored paths), and below the depth bound the children correspond
one-to-one, in listing order, to the subdirectories (witnessed by their
titles whenever no descriptor overrides them). -/
theorem compileEntries_order (slugify : String → String) (bp : String)
    (level : Nat) (entries : List SrcEntry) :
    ∀ (cs : List PTXElem) (qs : List PTXStackQuestion),
      compileEntries slugify bp level entries = .ok (cs, qs) →
      qs.map PTXStackQuestion.filepath
          = (questionFileNames entries).map (fun nm => pjoin bp nm) ∧
      (level < 3 → cs.length = (entries.filter isDirEntry).length ∧
        ((∀ nm sub, SrcEntry.dir nm sub ∈ entries →
            findEntry "gitsync_category.xml" sub = none) →
          cs.map PTXElem.title = dirEntryNames entries)) := by
  induction entries with
  | nil =>
    intro cs qs h
    obtain ⟨h1, h2⟩ := Prod.mk.injEq .. ▸ Except.ok.inj h
    subst h1; subst h2
    simp [questionFileNames, dirEntryNames]
  | cons e rest ih =>
    intro cs qs h
    obtain ⟨c, csr, qsr, hc, hr, hcase⟩ :=
      compileEntries_cons_ok slugify bp level e rest cs qs h
    obtain ⟨hq_r, hd_r⟩ := ih csr qsr hr
    cases e with
    | dir nm sub =>
      by_cases hl : level < 3
      · obtain ⟨t2, role, csx, qsx, hres, hlm, hce, hcc⟩ :=
          compileEntry_dir_ok slugify bp level nm sub c hl hc
        subst hcc
        rcases hcase with ⟨ch, hc1, hcs1, hqs1⟩ | ⟨q, hc1, _, _⟩ | ⟨hc1, _, _⟩
        · obtain rfl : ch = mkElemOfRole slugify role t2 "" qsx csx :=
            (Contribution.child.inj hc1).symm
          subst hcs1; subst hqs1
          constructor
          · simpa [questionFileNames, isQuestionFile] using hq_r
          · intro _
            obtain ⟨hlen, htitles⟩ := hd_r hl
            constructor
            · simp [isDirEntry, hlen]
            · intro hnd
              have hown : findEntry "gitsync_category.xml" sub = none :=
                hnd nm sub (List.mem_cons_self _ _)
              have hres2 : resolveTitle sub nm = .ok nm := by
                simp [resolveTitle, hown]
              rw [hres2] at hres
              have htn : nm = t2 := Except.ok.inj hres
              have h5 : dirEntryNames (SrcEntry.dir nm sub :: rest)
                  = nm :: dirEntryNames rest := by
                simp [dirEntryNames, isDirEntry, SrcEntry.name]
              rw [h5, List.map_cons, mkElemOfRole_title,
                htitles (fun nm2 sub2 hmem => hnd nm2 sub2 (List.mem_cons_of_mem _ hmem)),
                ← htn]
        · simp at hc1
        · simp at hc1
      · have hcskip : c = .skip := by
          rw [compileEntry_dir_skip slugify bp level nm sub hl] at hc
          exact (Except.ok.inj hc).symm
        subst hcskip
        rcases hcase with ⟨ch, hc1, _, _⟩ | ⟨q, hc1, _, _⟩ | ⟨_, hcs1, hqs1⟩
        · simp at hc1
        · simp at hc1
        · subst hcs1; subst hqs1
          constructor
          · simpa [questionFileNames, isQuestionFile] using hq_r
          · intro hl3
            exact absurd hl3 hl
    | file nm data =>
      by_cases hq : (strEndsWith nm ".xml" && nm != "gitsync_category.xml") = true
      · obtain ⟨q, hinit, hcq⟩ := compileEntry_file_ok slugify bp level nm data c hq hc
        subst hcq
        rcases hcase with ⟨ch, hc1, _, _⟩ | ⟨q2, hc1, hcs1, hqs1⟩ | ⟨hc1, _, _⟩
        · simp at hc1
        · obtain rfl : q = q2 := Contribution.question.inj hc1
          subst hcs1; subst hqs1
          constructor
          · have hfp : q.filepath = pjoin bp nm :=
              init_ok_filepath slugify (pjoin bp nm) data q hinit
            have h5 : questionFileNames (SrcEntry.file nm data :: rest)
                = nm :: questionFileNames rest := by
              simp [questionFileNames, isQuestionFile, hq, SrcEntry.name]
            rw [h5, List.map_cons, List.map_cons, hfp, hq_r]
          · intro hl3
            obtain ⟨hlen, htitles⟩ := hd_r hl3
            constructor
            · simpa [isDirEntry] using hlen
            · intro hnd
              rw [htitles (fun nm2 sub2 hmem => hnd nm2 sub2 (List.mem_cons_of_mem _ hmem))]
              simp [dirEntryNames, isDirEntry]
        · simp at hc1
      · have hcskip : c = .skip := by
          rw [compileEntry_file_skip slugify bp level nm data hq] at hc
          exact (Except.ok.inj hc).symm
        subst hcskip
        rcases hcase with ⟨ch, hc1, _, _⟩ | ⟨q2, hc1, _, _⟩ | ⟨_, hcs1, hqs1⟩
        · simp at hc1
        · simp at hc1
        · subst hcs1; subst hqs1
          constructor
          · simpa [questionFileNames, isQuestionFile, hq] using hq_r
          · intro hl3
            obtain ⟨hlen, htitles⟩ := hd_r hl3
            constructor
            · simpa [isDirEntry] using hlen
            · intro hnd
              rw [htitles (fun nm2 sub2 hmem => hnd nm2 sub2 (List.mem_cons_of_mem _ hmem))]
              simp [dirEntryNames, isDirEntry]

/-- C6: the node returned by a successful build has its `questions` in
exactly the directory-listing order of the question-resource files (their
stored paths are the listing's names, joined to the base path, in listing
order — e.g. a listing `[q2.xml, q1.xml]` yields the questions in that
order), and its `children` in exactly the listing order of the
subdirectories (one child per subdirectory below the depth bound; their
titles are the subdirectory names, in listing order, whenever no descriptor
overrides them).  No sorting is applied to either sequence. -/
theorem C6_listing_order (slugify : String → String) (bp : String)
    (entries : List SrcEntry) (t : String) (level : Nat) (e : PTXElem)
    (h : compile_structural_element slugify bp entries t level = .ok e) :
    e.questions.map PTXStackQuestion.filepath
        = (questionFileNames entries).map (fun nm => pjoin bp nm) ∧
    (level < 3 → e.children.length = (entries.filter isDirEntry).length ∧
      ((∀ nm sub, SrcEntry.dir nm sub ∈ entries →
          findEntry "gitsync_category.xml" sub = none) →
        e.children.map PTXElem.title = dirEntryNames entries)) := by
  obtain ⟨t2, role, cs, qs, hr, hl, hc, he⟩ :=
    (compile_ok_iff slugify bp entries t level e).mp h
  subst he
  rw [mkElemOfRole_questions, mkElemOfRole_children]
  exact compileEntries_order slugify bp level entries cs qs hc

/-- Witness for C6: a listing `[q2.xml, q1.xml]` (in that order) yields the
questions in exactly that order, not lexicographic order. -/
theorem C6_witness :
    (mkPTXChapter (fun s => s) "unit1" ""
        [⟨"source/unit1/q2.xml", "source/unit1/q2.xml", "<title>Question 2</title>"⟩,
         ⟨"source/unit1/q1.xml", "source/unit1/q1.xml", "<title>Question 1</title>"⟩]
        []).questions.map PTXStackQuestion.filepath
      = ["source/unit1/q2.xml", "source/unit1/q1.xml"] :=
  ((C6_listing_order (fun s => s) "source/unit1"
    [.file "q2.xml" (.xml (.node "quiz" none [.node "question" none
       [.node "name" none [.node "text" (some "Question 2") []]]])),
     .file "q1.xml" (.xml (.node "quiz" none [.node "question" none
       [.node "name" none [.node "text" (some "Question 1") []]]]))]
    "unit1" 1
    (mkPTXChapter (fun s => s) "unit1" ""
        [⟨"source/unit1/q2.xml", "source/unit1/q2.xml", "<title>Question 2</title>"⟩,
         ⟨"source/unit1/q1.xml", "source/unit1/q1.xml", "<title>Question 1</title>"⟩]
        [])
    rfl).1).trans rfl

/-- Depth and node count of the loop's output, by strong induction on the
size of the listing: below the depth bound every subdirectory becomes a
child whose subtree obeys the same law one level down; at the bound
subdirectories contribute nothing. -/
theorem compileEntries_depth_count (slugify : String → String) :
    ∀ (fuel : Nat) (entries : List SrcEntry), sizeOf entries ≤ fuel →
      ∀ (bp : String) (level : Nat) (cs : List PTXElem) (qs : List PTXStackQuestion),
        compileEntries slugify bp level entries = .ok (cs, qs) →
        elemDepthKids cs = min (srcDepth entries) (3 - level) ∧
        elemCountKids cs = dirsVisited level entries := by
  intro fuel
  induction fuel with
  | zero =>
    intro entries hsz
    cases entries with
    | nil =>
      intro bp level cs qs h
      obtain ⟨h1, h2⟩ := Prod.mk.injEq .. ▸ Except.ok.inj h
      subst h1
      simp [elemDepthKids, elemCountKids, srcDepth, dirsVisited]
    | cons e rest =>
      exfalso
      simp [List.cons.sizeOf_spec] at hsz
  | succ n ihf =>
    intro entries hsz bp level cs qs h
    cases entries with
    | nil =>
      obtain ⟨h1, h2⟩ := Prod.mk.injEq .. ▸ Except.ok.inj h
      subst h1
      simp [elemDepthKids, elemCountKids, srcDepth, dirsVisited]
    | cons e rest =>
      obtain ⟨c, csr, qsr, hcE, hrE, hcase⟩ :=
        compileEntries_cons_ok slugify bp level e rest cs qs h
      have hszrest : sizeOf rest ≤ n := by
        simp [List.cons.sizeOf_spec] at hsz
        omega
      obtain ⟨hdep_r, hcnt_r⟩ := ihf rest hszrest bp level csr qsr hrE
      cases e with
      | dir nm sub =>
        by_cases hl : level < 3
        · obtain ⟨t2, role, csx, qsx, hres, hlm, hce, hcc⟩ :=
            compileEntry_dir_ok slugify bp level nm sub c hl hcE
          subst hcc
          rcases hcase with ⟨ch, hc1, hcs1, hqs1⟩ | ⟨q, hc1, _, _⟩ | ⟨hc1, _, _⟩
          · obtain rfl : mkElemOfRole slugify role t2 "" qsx csx = ch :=
              Contribution.child.inj hc1
            subst hcs1; subst hqs1
            have hszsub : sizeOf sub ≤ n := by
              simp [List.cons.sizeOf_spec, SrcEntry.dir.sizeOf_spec] at hsz
              omega
            obtain ⟨hdep_s, hcnt_s⟩ := ihf sub hszsub (pjoin bp nm) (level + 1) csx qsx hce
            constructor
            · simp only [elemDepthKids]
              rw [elemDepth_mkElemOfRole, hdep_s, hdep_r]
              simp only [srcDepth, srcDepthEntry]
              omega
            · simp only [elemCountKids]
              rw [elemCount_mkElemOfRole, hcnt_s, hcnt_r]
              simp only [dirsVisited, dirsVisitedEntry, if_pos hl]
          · simp at hc1
          · simp at hc1
        · have hcskip : c = .skip := by
            rw [compileEntry_dir_skip slugify bp level nm sub hl] at hcE
            exact (Except.ok.inj hcE).symm
          subst hcskip
          rcases hcase with ⟨ch, hc1, _, _⟩ | ⟨q, hc1, _, _⟩ | ⟨_, hcs1, hqs1⟩
          · simp at hc1
          · simp at hc1
          · subst hcs1; subst hqs1
            constructor
            · rw [hdep_r]
              simp only [srcDepth, srcDepthEntry]
              omega
            · rw [hcnt_r]
              simp only [dirsVisited, dirsVisitedEntry, if_neg hl]
              omega
      | file nm data =>
        have hstep : cs = csr := by
          rcases hcase with ⟨ch, hc1, _, _⟩ | ⟨q2, hc1, hcs1, hqs1⟩ | ⟨_, hcs1, hqs1⟩
          · exfalso
            by_cases hq : (strEndsWith nm ".xml" && nm != "gitsync_category.xml") = true
            · obtain ⟨q, hinit, hcq⟩ := compileEntry_file_ok slugify bp level nm data c hq hcE
              rw [hcq] at hc1
              simp at hc1
            · rw [compileEntry_file_skip slugify bp level nm data hq] at hcE
              have : c = .skip := (Except.ok.inj hcE).symm
              rw [this] at hc1
              simp at hc1
          · exact hcs1
          · exact hcs1
        subst hstep
        constructor
        · rw [hdep_r]
          simp only [srcDepth, srcDepthEntry]
          omega
        · rw [hcnt_r]
          simp only [dirsVisited, dirsVisitedEntry]
          omega

/-- C2: for every source tree, a successful build from the root (level 0)
returns a Structural Node tree whose depth is the minimum of the source
tree's depth and 3 (so for source depth at most 3 the depths agree), and
whose node count is the number of directories visited up to that bound —
the root itself plus `dirsVisited`, which enters a subdirectory only while
`level < 3`; a directory nested at depth 4 is never visited and contributes
no node, whatever it contains. -/
theorem C2_depth_count (slugify : String → String) (bp : String)
    (entries : List SrcEntry) (t : String) (e : PTXElem)
    (h : compile_structural_element slugify bp entries t 0 = .ok e) :
    elemDepth e = min (srcDepth entries) 3 ∧
    elemCount e = 1 + dirsVisited 0 entries := by
  obtain ⟨t2, role, cs, qs, hr, hl, hc, he⟩ :=
    (compile_ok_iff slugify bp entries t 0 e).mp h
  subst he
  obtain ⟨h1, h2⟩ :=
    compileEntries_depth_count slugify (sizeOf entries) entries le_rfl bp 0 cs qs hc
  constructor
  · rw [elemDepth_mkElemOfRole, h1]
  · rw [elemCount_mkElemOfRole, h2]

/-- Witness for C2: a chain nested four directories deep builds to a tree
of depth 3 with 4 structural nodes; the depth-4 directory and its question
file contribute nothing. -/
theorem C2_witness :
    elemDepth (mkPTXMain (fun s => s) "Stats Gold" "" []
      [mkPTXChapter (fun s => s) "a" "" []
        [mkPTXSection (fun s => s) "b" "" []
          [mkPTXSubsection (fun s => s) "c" "" [] []]]])
      = min (srcDepth [.dir "a" [.dir "b" [.dir "c" [.dir "d"
          [.file "q.xml" (.xml (.node "quiz" none [.node "question" none
            [.node "name" none [.node "text" (some "Q") []]]]))]]]]]) 3 ∧
    elemCount (mkPTXMain (fun s => s) "Stats Gold" "" []
      [mkPTXChapter (fun s => s) "a" "" []
        [mkPTXSection (fun s => s) "b" "" []
          [mkPTXSubsection (fun s => s) "c" "" [] []]]])
      = 1 + dirsVisited 0 [.dir "a" [.dir "b" [.dir "c" [.dir "d"
          [.file "q.xml" (.xml (.node "quiz" none [.node "question" none
            [.node "name" none [.node "text" (some "Q") []]]]))]]]]] :=
  C2_depth_count (fun s => s) "source/stack"
    [.dir "a" [.dir "b" [.dir "c" [.dir "d"
      [.file "q.xml" (.xml (.node "quiz" none [.node "question" none
        [.node "name" none [.node "text" (some "Q") []]]]))]]]]]
    "Stats Gold"
    (mkPTXMain (fun s => s) "Stats Gold" "" []
      [mkPTXChapter (fun s => s) "a" "" []
        [mkPTXSection (fun s => s) "b" "" []
          [mkPTXSubsection (fun s => s) "c" "" [] []]]])
    rfl

/-- Every failure of category-title extraction is a parse failure. -/
theorem categoryTitle_error (data : FileData) (er : BuildError)
    (h : categoryTitle data = .error er) : er = .resourceParse := by
  cases data with
  | unparseable => exact (Except.error.inj h).symm
  | xml doc =>
    simp only [categoryTitle] at h
    split at h
    · exact (Except.error.inj h).symm
    · split at h
      · exact (Except.error.inj h).symm
      · cases h

/-- The level map is total on levels 0..3. -/
theorem level_map_some (level : Nat) (h : level ≤ 3) :
    ∃ r, level_map level = some r := by
  interval_cases level
  · exact ⟨.main, rfl⟩
  · exact ⟨.chapter, rfl⟩
  · exact ⟨.sect, rfl⟩
  · exact ⟨.subsect, rfl⟩

/-- Title resolution succeeds when the descriptor, if present, is sound. -/
theorem resolveTitle_ok (entries : List SrcEntry) (t : String)
    (h : descriptorOk entries = true) :
    ∃ t2, resolveTitle entries t = .ok t2 := by
  cases hf : findEntry "gitsync_category.xml" entries with
  | none => exact ⟨t, by simp [resolveTitle, hf]⟩
  | some en =>
    cases en with
    | dir nm sub => simp [descriptorOk, hf] at h
    | file nm d =>
      simp only [descriptorOk, hf] at h
      cases hc : categoryTitle d with
      | error er => simp [hc] at h
      | ok s => exact ⟨s, by simp [resolveTitle, hf, hc]⟩

/-- Question construction succeeds on a well-formed resource file. -/
theorem init_ok_of_good (slugify : String → String) (fp : String)
    (data : FileData) (h : goodQuestion data = true) :
    ∃ q, PTXStackQuestion.init slugify fp data = .ok q := by
  cases data with
  | unparseable => simp [goodQuestion] at h
  | xml doc =>
    simp only [goodQuestion, Option.isSome_iff_exists] at h
    obtain ⟨nd, hnd⟩ := h
    exact ⟨{ filepath := fp, xmlid := slugify fp
             title_tag := serializeXml (nd.withTag "title") },
      by simp [PTXStackQuestion.init, hnd]⟩

/-- Existence of a successful loop run on a well-formed listing, by strong
induction on the size of the listing. -/
theorem compileEntries_ok_of_wf (slugify : String → String) :
    ∀ (fuel : Nat) (entries : List SrcEntry), sizeOf entries ≤ fuel →
      ∀ (bp : String) (level : Nat), wfList level entries = true →
        ∃ res, compileEntries slugify bp level entries = .ok res := by
  intro fuel
  induction fuel with
  | zero =>
    intro entries hsz
    cases entries with
    | nil => exact fun bp level _ => ⟨([], []), rfl⟩
    | cons e rest =>
      exfalso
      simp [List.cons.sizeOf_spec] at hsz
  | succ n ihf =>
    intro entries hsz bp level hwf
    cases entries with
    | nil => exact ⟨([], []), rfl⟩
    | cons e rest =>
      simp only [wfList, Bool.and_eq_true] at hwf
      obtain ⟨hwe, hwr⟩ := hwf
      have hszrest : sizeOf rest ≤ n := by
        simp [List.cons.sizeOf_spec] at hsz
        omega
      obtain ⟨⟨csr, qsr⟩, hres⟩ := ihf rest hszrest bp level hwr
      have hhead : ∃ c, compileEntry slugify bp level e = .ok c := by
        cases e with
        | dir nm sub =>
          by_cases hl : level < 3
          · simp only [wfEntry, if_pos hl, Bool.and_eq_true] at hwe
            obtain ⟨hdesc, hsub⟩ := hwe
            obtain ⟨t2, hrt⟩ := resolveTitle_ok sub nm hdesc
            obtain ⟨r, hlm⟩ := level_map_some (level + 1) (by omega)
            have hszsub : sizeOf sub ≤ n := by
              simp [List.cons.sizeOf_spec, SrcEntry.dir.sizeOf_spec] at hsz
              omega
            obtain ⟨⟨csx, qsx⟩, hcs⟩ := ihf sub hszsub (pjoin bp nm) (level + 1) hsub
            exact ⟨.child (mkElemOfRole slugify r t2 "" qsx csx),
              by simp [compileEntry, if_pos hl, hrt, hlm, hcs]⟩
          · exact ⟨.skip, compileEntry_dir_skip slugify bp level nm sub hl⟩
        | file nm data =>
          by_cases hq : (strEndsWith nm ".xml" && nm != "gitsync_category.xml") = true
          · simp only [wfEntry, if_pos hq] at hwe
            obtain ⟨q, hq2⟩ := init_ok_of_good slugify (pjoin bp nm) data hwe
            refine ⟨.question q, ?_⟩
            have hstep : compileEntry slugify bp level (.file nm data) =
                match PTXStackQuestion.init slugify (pjoin bp nm) data with
                | .error e => .error e
                | .ok q => .ok (.question q) := by
              simp only [compileEntry, if_pos hq]
            rw [hstep, hq2]
          · exact ⟨.skip, compileEntry_file_skip slugify bp level nm data hq⟩
      obtain ⟨c, hcE⟩ := hhead
      cases c with
      | child ch => exact ⟨(ch :: csr, qsr), by simp [compileEntries, hcE, hres]⟩
      | question q => exact ⟨(csr, q :: qsr), by simp [compileEntries, hcE, hres]⟩
      | skip => exact ⟨(csr, qsr), by simp [compileEntries, hcE, hres]⟩

/-- C4: absence of the category-descriptor file is not an error — a
successful build of a descriptor-free listing keeps the caller's
provisional title, and the build does succeed whenever the listing is
otherwise well formed — whereas a descriptor that is present but malformed
(unparseable, or missing the expected category node or its text) makes the
whole build return `ResourceParseError`: the error aborts everything, with
no partial recovery and no fallback title. -/
theorem C4_descriptor_asymmetry :
    (∀ (slugify : String → String) (bp : String) (entries : List SrcEntry)
        (t : String) (level : Nat) (e : PTXElem),
      findEntry "gitsync_category.xml" entries = none →
      compile_structural_element slugify bp entries t level = .ok e →
      e.title = t) ∧
    (∀ (slugify : String → String) (bp : String) (entries : List SrcEntry)
        (t : String) (level : Nat),
      level ≤ 3 → descriptorOk entries = true → wfList level entries = true →
      ∃ e, compile_structural_element slugify bp entries t level = .ok e) ∧
    (∀ (slugify : String → String) (bp : String) (entries : List SrcEntry)
        (t : String) (level : Nat) (dn : String) (data : FileData) (er : BuildError),
      findEntry "gitsync_category.xml" entries = some (.file dn data) →
      categoryTitle data = .error er →
      compile_structural_element slugify bp entries t level = .error .resourceParse) := by
  refine ⟨?_, ?_, ?_⟩
  · intro slugify bp entries t level e hf h
    obtain ⟨t2, role, cs, qs, hr, hl, hc, he⟩ :=
      (compile_ok_iff slugify bp entries t level e).mp h
    have hres : resolveTitle entries t = .ok t := by simp [resolveTitle, hf]
    rw [hres] at hr
    obtain rfl : t = t2 := Except.ok.inj hr
    rw [he, mkElemOfRole_title]
  · intro slugify bp entries t level hle hdesc hwf
    obtain ⟨t2, hrt⟩ := resolveTitle_ok entries t hdesc
    obtain ⟨r, hlm⟩ := level_map_some level hle
    obtain ⟨⟨cs, qs⟩, hce⟩ :=
      compileEntries_ok_of_wf slugify (sizeOf entries) entries le_rfl bp level hwf
    exact ⟨mkElemOfRole slugify r t2 "" qs cs,
      (compile_ok_iff slugify bp entries t level _).mpr
        ⟨t2, r, cs, qs, hrt, hlm, hce, rfl⟩⟩
  · intro slugify bp entries t level dn data er hf hcat
    have her : er = .resourceParse := categoryTitle_error data er hcat
    subst her
    have hres : resolveTitle entries t = .error .resourceParse := by
      simp [resolveTitle, hf, hcat]
    unfold compile_structural_element
    rw [hres]

/-- Witness for C4: a directory without descriptor keeps its provisional
title and builds successfully; a directory whose descriptor does not parse
fails with `ResourceParseError`. -/
theorem C4_witness :
    (mkPTXChapter (fun s => s) "unit1" ""
        [⟨"source/unit1/q1.xml", "source/unit1/q1.xml", "<title>Question 1</title>"⟩]
        []).title = "unit1" ∧
    (∃ e, compile_structural_element (fun s => s) "source/unit1"
        [.file "q1.xml" (.xml (.node "quiz" none [.node "question" none
          [.node "name" none [.node "text" (some "Question 1") []]]]))]
        "unit1" 1 = .ok e) ∧
    compile_structural_element (fun s => s) "source/unit9"
        [.file "gitsync_category.xml" .unparseable] "unit9" 1
      = .error .resourceParse :=
  ⟨C4_descriptor_asymmetry.1 (fun s => s) "source/unit1"
    [.file "q1.xml" (.xml (.node "quiz" none [.node "question" none
      [.node "name" none [.node "text" (some "Question 1") []]]]))]
    "unit1" 1
    (mkPTXChapter (fun s => s) "unit1" ""
      [⟨"source/unit1/q1.xml", "source/unit1/q1.xml", "<title>Question 1</title>"⟩] [])
    rfl rfl,
   C4_descriptor_asymmetry.2.1 (fun s => s) "source/unit1"
    [.file "q1.xml" (.xml (.node "quiz" none [.node "question" none
      [.node "name" none [.node "text" (some "Question 1") []]]]))]
    "unit1" 1 (by omega) rfl rfl,
   C4_descriptor_asymmetry.2.2 (fun s => s) "source/unit9"
    [.file "gitsync_category.xml" .unparseable] "unit9" 1
    "gitsync_category.xml" .unparseable .resourceParse rfl rfl⟩

/-- An unparseable question-resource file in the listing makes the loop
fail, whatever else the listing holds. -/
theorem compileEntries_err_of_badfile (slugify : String → String) (bp : String)
    (level : Nat) (name : String)
    (hx : strEndsWith name ".xml" = true)
    (hnd : (name != "gitsync_category.xml") = true) :
    ∀ (entries : List SrcEntry), SrcEntry.file name .unparseable ∈ entries →
      ∀ cs qs, compileEntries slugify bp level entries ≠ .ok (cs, qs) := by
  intro entries
  induction entries with
  | nil =>
    intro hin
    cases hin
  | cons e rest ih =>
    intro hin cs qs h
    obtain ⟨c, csr, qsr, hcE, hrE, _⟩ :=
      compileEntries_cons_ok slugify bp level e rest cs qs h
    rcases List.mem_cons.mp hin with he | hm
    · subst he
      have hq : (strEndsWith name ".xml" && name != "gitsync_category.xml") = true := by
        rw [hx, hnd]
        rfl
      obtain ⟨q, hinit, _⟩ :=
        compileEntry_file_ok slugify bp level name .unparseable c hq hcE
      simp [PTXStackQuestion.init] at hinit
    · exact ih hm csr qsr hrE

/-- C10: question-resource files placed directly in the root directory are
each parsed by the level-0 build (so an unparseable one still aborts the
whole build) and appended to the Root node's questions, yet the Root's
renderer reads neither `questions` nor `introduction` (nor even its
`basepath`), so the Root's rendered text and the entire written trace are
unchanged by them: questions attached to the Root never appear in any
written output file. -/
theorem C10_root_questions :
    (∀ (slugify : String → String) (bp : String) (entries : List SrcEntry)
        (t name : String),
      SrcEntry.file name .unparseable ∈ entries →
      strEndsWith name ".xml" = true → (name != "gitsync_category.xml") = true →
      ∀ e, compile_structural_element slugify bp entries t 0 ≠ .ok e) ∧
    (∀ (slugify : String → String) (bp : String) (entries : List SrcEntry)
        (t : String) (e : PTXElem),
      compile_structural_element slugify bp entries t 0 = .ok e →
      e.role = .main ∧ e.questions.length = (questionFileNames entries).length) ∧
    (∀ (slugify : String → String) (t i i2 : String)
        (qs qs2 : List PTXStackQuestion) (cs : List PTXElem) (bp bp2 : String),
      renderElem (mkPTXMain slugify t i qs cs) bp
          = renderElem (mkPTXMain slugify t i2 qs2 cs) bp2 ∧
      make_files (mkPTXMain slugify t i qs cs) bp
          = make_files (mkPTXMain slugify t i2 qs2 cs) bp) := by
  refine ⟨?_, ?_, ?_⟩
  · intro slugify bp entries t name hin hx hnd e h
    obtain ⟨t2, role, cs, qs, hr, hl, hc, he⟩ :=
      (compile_ok_iff slugify bp entries t 0 e).mp h
    exact compileEntries_err_of_badfile slugify bp 0 name hx hnd entries hin cs qs hc
  · intro slugify bp entries t e h
    obtain ⟨t2, role, cs, qs, hr, hl, hc, he⟩ :=
      (compile_ok_iff slugify bp entries t 0 e).mp h
    have hrole : some Role.main = some role := hl
    obtain rfl : Role.main = role := Option.some.inj hrole
    constructor
    · rw [he, mkElemOfRole_role]
    · rw [he, mkElemOfRole_questions]
      have hmap := (compileEntries_order slugify bp 0 entries cs qs hc).1
      calc qs.length = (qs.map PTXStackQuestion.filepath).length :=
            (List.length_map _ _).symm
        _ = ((questionFileNames entries).map (fun nm => pjoin bp nm)).length := by
            rw [hmap]
        _ = (questionFileNames entries).length := List.length_map _ _
  · intro slugify t i i2 qs qs2 cs bp bp2
    exact ⟨rfl, rfl⟩

/-- Witness for C10: a root listing with an unparseable `bad.xml` never
builds; a root with one good question yields a main node carrying it; and
the root's render and trace ignore questions and introduction. -/
theorem C10_witness :
    (compile_structural_element (fun s => s) "source/stack"
        [.file "bad.xml" .unparseable] "Stats Gold" 0
      ≠ .ok (mkPTXMain (fun s => s) "Stats Gold" "" [] [])) ∧
    ((mkPTXMain (fun s => s) "Stats Gold" ""
        [⟨"source/stack/q1.xml", "source/stack/q1.xml", "<title>Question 1</title>"⟩]
        []).role = .main ∧
     (mkPTXMain (fun s => s) "Stats Gold" ""
        [⟨"source/stack/q1.xml", "source/stack/q1.xml", "<title>Question 1</title>"⟩]
        []).questions.length
       = (questionFileNames [.file "q1.xml" (.xml (.node "quiz" none
           [.node "question" none
             [.node "name" none [.node "text" (some "Question 1") []]]]))]).length) ∧
    (renderElem (mkPTXMain (fun s => s) "Stats Gold" "intro"
        [⟨"p", "p", "<title>X</title>"⟩] []) "out1"
       = renderElem (mkPTXMain (fun s => s) "Stats Gold" "" [] []) "out2" ∧
     make_files (mkPTXMain (fun s => s) "Stats Gold" "intro"
        [⟨"p", "p", "<title>X</title>"⟩] []) "out1"
       = make_files (mkPTXMain (fun s => s) "Stats Gold" "" [] []) "out1") :=
  ⟨C10_root_questions.1 (fun s => s) "source/stack"
    [.file "bad.xml" .unparseable] "Stats Gold" "bad.xml"
    (List.mem_singleton.mpr rfl) rfl rfl
    (mkPTXMain (fun s => s) "Stats Gold" "" [] []),
   C10_root_questions.2.1 (fun s => s) "source/stack"
    [.file "q1.xml" (.xml (.node "quiz" none [.node "question" none
      [.node "name" none [.node "text" (some "Question 1") []]]]))]
    "Stats Gold"
    (mkPTXMain (fun s => s) "Stats Gold" ""
      [⟨"source/stack/q1.xml", "source/stack/q1.xml", "<title>Question 1</title>"⟩] [])
    rfl,
   C10_root_questions.2.2 (fun s => s) "Stats Gold" "intro" ""
    [⟨"p", "p", "<title>X</title>"⟩] [] [] "out1" "out2"⟩
